import Mathlib

/-!
# Pub/Sub session of the redis client (`pubsub.go`)

A shallow embedding of `pubsub.go`: the event model, the reply decoder inside
`PubSub.ReceiveTimeout`, the command writer `PubSub.subscribe` and its four
wrappers, and `PubSub.Receive`.

Conventions of the embedding.

* A Go `interface{}` element of a reply is a `Value`; a reply is a `List Value`.
* Go strings are Lean strings, compared exactly as the Go `switch` does.
* `int64` and `time.Duration` are `Int`; the conversion `int(x)` wraps at
  `intSize` bits (64, the size of `int` on 64-bit targets).
* A call either returns or stops with a run-time panic: `Result`.  The two
  return values `(interface{}, error)` are a pair of options, `none` being `nil`.
* The session is passed explicitly: every method returns the session it leaves.
-/

namespace Redis

/-! ## Go values, panics, errors -/

/-- Dynamic values held by an `interface{}` element of a reply: `nil`, a
`string`, an `int64`, or a nested `[]interface{}`. -/
inductive Value where
  | nil : Value
  | str (s : String) : Value
  | int64 (n : Int) : Value
  | slice (vs : List Value) : Value

/-- The static types named by the type assertions of `ReceiveTimeout`. -/
inductive GoType where
  | string
  | int64
  deriving DecidableEq, Repr

/-- Run-time panics the method bodies can raise. -/
inductive Panic where
  | indexOutOfRange (index length : Nat)
  | interfaceConversion (got : Value) (want : GoType)

/-- Outcome of running a Go function body: a normal return or a panic. -/
inductive Result (α : Type) where
  | ret (a : α) : Result α
  | panic (p : Panic) : Result α

/-- Sequencing of two computations; a panic of the first stops the second. -/
def Result.bind {α β : Type} (r : Result α) (f : α → Result β) : Result β :=
  match r with
  | .ret a => f a
  | .panic p => .panic p

/-- Whether the outcome is a panic. -/
def Result.isPanic {α : Type} (r : Result α) : Bool :=
  match r with
  | .ret _ => false
  | .panic _ => true

/-- Go `error` values: one built by `fmt.Errorf` from a format and its string
operands, or one handed over by a collaborator (pool, reader, writer). -/
inductive GoError where
  | Errorf (format : String) (a : List String)
  | ext (text : String)
  deriving DecidableEq, Repr

/-- The end-of-stream error of the reader (`io.EOF`). -/
def EOF : GoError := .ext "EOF"

/-! ## The fragment of `fmt` used by `pubsub.go` -/

/-- Text `fmt` appends for operands left over after the last verb. -/
def extraOperands : List String → String
  | [] => ""
  | [a] => "string=" ++ a
  | a :: as => "string=" ++ a ++ ", " ++ extraOperands as

/-- Formatting loop of `fmt.Sprintf` over the characters of the format, for
string operands and the verbs `%s`, `%q` and `%%`.  The argument `quote` is
`strconv.Quote`, the rendering of `%q`. -/
def sprintfLoop (quote : String → String) : List Char → List String → String
  | [], [] => ""
  | [], a :: as => "%!(EXTRA " ++ extraOperands (a :: as) ++ ")"
  | [c], as =>
    if c = '%' then "%!(NOVERB)" ++ sprintfLoop quote [] as
    else String.singleton c ++ sprintfLoop quote [] as
  | c :: v :: rest, as =>
    if c = '%' then
      if v = '%' then "%" ++ sprintfLoop quote rest as
      else if v = 's' then
        match as with
        | [] => "%!s(MISSING)" ++ sprintfLoop quote rest []
        | a :: as1 => a ++ sprintfLoop quote rest as1
      else if v = 'q' then
        match as with
        | [] => "%!q(MISSING)" ++ sprintfLoop quote rest []
        | a :: as1 => quote a ++ sprintfLoop quote rest as1
      else
        match as with
        | [] => "%!" ++ String.singleton v ++ "(MISSING)" ++ sprintfLoop quote rest []
        | a :: as1 =>
          "%!" ++ String.singleton v ++ "(string=" ++ a ++ ")" ++ sprintfLoop quote rest as1
    else String.singleton c ++ sprintfLoop quote (v :: rest) as

/-- Model of `fmt.Sprintf(format, a...)` for string operands. -/
def Sprintf (quote : String → String) (format : String) (a : List String) : String :=
  sprintfLoop quote format.toList a

/-- Method `Error()` of an error value: its text. -/
def GoError.Error (quote : String → String) : GoError → String
  | .Errorf format a => Sprintf quote format a
  | .ext text => text

/-! ## Event model -/

/-- Message received as result of a PUBLISH command issued by another client. -/
structure Message where
  Channel : String
  Payload : String
  deriving DecidableEq, Repr

/-- Message matching a pattern-matching subscription. -/
structure PMessage where
  Channel : String
  Pattern : String
  Payload : String
  deriving DecidableEq, Repr

/-- Message received after a successful subscription to channel. -/
structure Subscription where
  Kind : String
  Channel : String
  Count : Int
  deriving DecidableEq, Repr

/-- The non-nil values `ReceiveTimeout` returns in its `interface{}` result:
a `*Subscription`, a `*Message` or a `*PMessage`. -/
inductive Event where
  | subscription (m : Subscription)
  | message (m : Message)
  | pmessage (m : PMessage)
  deriving DecidableEq, Repr

/-! ## Primitive expressions of the method bodies -/

/-- Width of Go `int` in bits. -/
def intSize : Nat := 64

/-- Conversion `int(x)` of an `int64`: the value wrapped to `intSize` bits,
two's complement. -/
def toInt (x : Int) : Int :=
  (x + 2 ^ (intSize - 1)) % 2 ^ intSize - 2 ^ (intSize - 1)

/-- Index expression `reply[i]`: panics when `i` is out of range. -/
def index (reply : List Value) (i : Nat) : Result Value :=
  match reply[i]? with
  | some v => .ret v
  | none => .panic (.indexOutOfRange i reply.length)

/-- Type assertion `v.(string)` in its one-result form: panics on any other
dynamic type. -/
def assertString (v : Value) : Result String :=
  match v with
  | .str s => .ret s
  | other => .panic (.interfaceConversion other .string)

/-- Type assertion `v.(int64)` in its one-result form. -/
def assertInt64 (v : Value) : Result Int :=
  match v with
  | .int64 n => .ret n
  | other => .panic (.interfaceConversion other .int64)

/-- Lines 83 to 104 of `ReceiveTimeout`: the dispatch on `reply[0]`.  Operands
are evaluated in source order. -/
def decodeReply (reply : List Value) : Result (Option Event × Option GoError) :=
  (index reply 0).bind fun v0 =>
  (assertString v0).bind fun msgName =>
  if msgName = "subscribe" ∨ msgName = "unsubscribe" ∨ msgName = "psubscribe"
      ∨ msgName = "punsubscribe" then
    (index reply 1).bind fun v1 =>
    (assertString v1).bind fun channel =>
    (index reply 2).bind fun v2 =>
    (assertInt64 v2).bind fun count =>
    .ret (some (.subscription { Kind := msgName, Channel := channel, Count := toInt count }),
      none)
  else if msgName = "message" then
    (index reply 1).bind fun v1 =>
    (assertString v1).bind fun channel =>
    (index reply 2).bind fun v2 =>
    (assertString v2).bind fun payload =>
    .ret (some (.message { Channel := channel, Payload := payload }), none)
  else if msgName = "pmessage" then
    (index reply 1).bind fun v1 =>
    (assertString v1).bind fun pattern =>
    (index reply 2).bind fun v2 =>
    (assertString v2).bind fun channel =>
    (index reply 3).bind fun v3 =>
    (assertString v3).bind fun payload =>
    .ret (some (.pmessage { Pattern := pattern, Channel := channel, Payload := payload }),
      none)
  else
    .ret (none, some (.Errorf "redis: unsupported message name: %q" [msgName]))

/-! ## Collaborators: connection, reader, writer, pool -/

/-- Modelled from the spec: the dedicated connection (`*conn`, not in
`pubsub.go`).  `ReadTimeout` is the field `ReceiveTimeout` assigns.  `rd` is the
inbound side: the outcomes, in order, of the reads still to come, each a reply
frame or a read error (a timeout included).  `reads` records the read timeout in
force at every read attempted so far, oldest first.  `wr` records the command
frames handed to the frame writer, oldest first, and `werr` is the outcome of a
write: `none` for success, or the transport error. -/
structure conn where
  ReadTimeout : Int
  rd : List (Except GoError (List Value))
  reads : List Int
  wr : List (List Value)
  werr : Option GoError

/-- Modelled from the spec: the generic command object (`*SliceCmd`, not in
`pubsub.go`): the arguments it was built from and the reply parsed into it. -/
structure SliceCmd where
  args : List Value
  val : List Value

/-- Modelled from the spec: constructor `NewSliceCmd(args...)`. -/
def NewSliceCmd (args : List Value) : SliceCmd :=
  { args := args, val := [] }

/-- Modelled from the spec: accessor `cmd.Val()`. -/
def SliceCmd.Val (cmd : SliceCmd) : List Value :=
  cmd.val

/-- Modelled from the spec: the frame reader `cmd.parseReply(cn.rd)`
(`readFrame(Connection, deadline) -> ReplyFrame | error`).  One call is one read
attempt under the connection's current `ReadTimeout`: it takes the head outcome
off the inbound side; an exhausted inbound side reads as end of stream. -/
def SliceCmd.parseReply (cmd : SliceCmd) (cn : conn) : Option GoError × SliceCmd × conn :=
  match cn.rd with
  | [] => (some EOF, cmd, { cn with reads := cn.reads ++ [cn.ReadTimeout] })
  | .error err :: rest =>
    (some err, cmd, { cn with rd := rest, reads := cn.reads ++ [cn.ReadTimeout] })
  | .ok reply :: rest =>
    (none, { cmd with val := reply },
      { cn with rd := rest, reads := cn.reads ++ [cn.ReadTimeout] })

/-- Modelled from the spec: the frame writer `cn.writeCmds(req)`
(`writeFrame(Connection, verb, args) -> ok | error`): one command frame, made of
the arguments of `req`, is handed to the transport. -/
def conn.writeCmds (cn : conn) (req : SliceCmd) : Option GoError × conn :=
  (cn.werr, { cn with wr := cn.wr ++ [req.args] })

/-- The session.  Modelled from the spec: its embedded `*baseClient` (not in
`pubsub.go`) is reduced to what the connection provider
(`acquireExclusive() -> Connection | error`) yields: the dedicated connection,
or the acquisition error. -/
structure PubSub where
  connPool : Except GoError conn

/-- Modelled from the spec: the connection provider `c.conn()`. -/
def PubSub.conn (c : PubSub) : Except GoError conn :=
  c.connPool

/-! ## Methods of `PubSub` -/

/-- Method `ReceiveTimeout`: the outcome of the call and the session it leaves. -/
def PubSub.ReceiveTimeout (c : PubSub) (timeout : Int) :
    Result (Option Event × Option GoError) × PubSub :=
  match c.conn with
  | .error err => (.ret (none, some err), c)
  | .ok cn =>
    let cn1 := { cn with ReadTimeout := timeout }
    let cmd := NewSliceCmd []
    match cmd.parseReply cn1 with
    | (some err, _, cn2) => (.ret (none, some err), { connPool := .ok cn2 })
    | (none, cmd1, cn2) =>
      let reply := cmd1.Val
      (decodeReply reply, { connPool := .ok cn2 })

/-- Method `Receive`. -/
def PubSub.Receive (c : PubSub) : Result (Option Event × Option GoError) × PubSub :=
  c.ReceiveTimeout 0

/-- Indexed assignment `s[i] = v`: panics when `i` is out of range. -/
def setIndex (s : List Value) (i : Nat) (v : Value) : Result (List Value) :=
  if i < s.length then .ret (s.set i v) else .panic (.indexOutOfRange i s.length)

/-- The loop `for i, channel := range channels { args[1+i] = channel }`, from
index `i` on. -/
def fillChannels (args : List Value) (i : Nat) : List String → Result (List Value)
  | [] => .ret args
  | channel :: rest =>
    (setIndex args (1 + i) (.str channel)).bind fun args1 => fillChannels args1 (i + 1) rest

/-- Lines 113 to 117 of `subscribe`: the argument slice of the command. -/
def buildArgs (cmd : String) (channels : List String) : Result (List Value) :=
  let args := List.replicate (1 + channels.length) Value.nil
  (setIndex args 0 (.str cmd)).bind fun args1 => fillChannels args1 0 channels

/-- Method `subscribe`: the outcome of the call and the session it leaves. -/
def PubSub.subscribe (c : PubSub) (cmd : String) (channels : List String) :
    Result (Option GoError) × PubSub :=
  match c.conn with
  | .error err => (.ret (some err), c)
  | .ok cn =>
    match buildArgs cmd channels with
    | .panic p => (.panic p, c)
    | .ret args =>
      let req := NewSliceCmd args
      match cn.writeCmds req with
      | (err, cn1) => (.ret err, { connPool := .ok cn1 })

/-- Method `Subscribe`. -/
def PubSub.Subscribe (c : PubSub) (channels : List String) : Result (Option GoError) × PubSub :=
  c.subscribe "SUBSCRIBE" channels

/-- Method `PSubscribe`. -/
def PubSub.PSubscribe (c : PubSub) (patterns : List String) : Result (Option GoError) × PubSub :=
  c.subscribe "PSUBSCRIBE" patterns

/-- Method `Unsubscribe`. -/
def PubSub.Unsubscribe (c : PubSub) (channels : List String) : Result (Option GoError) × PubSub :=
  c.subscribe "UNSUBSCRIBE" channels

/-- Method `PUnsubscribe`. -/
def PubSub.PUnsubscribe (c : PubSub) (patterns : List String) :
    Result (Option GoError) × PubSub :=
  c.subscribe "PUNSUBSCRIBE" patterns

/-! ## Shape of a well-formed frame, in the words of the specification -/

/-- The six known discriminators. -/
def knownNames : List String :=
  ["subscribe", "unsubscribe", "psubscribe", "punsubscribe", "message", "pmessage"]

/-- The four acknowledgement kinds. -/
def ackKinds : List String :=
  ["subscribe", "unsubscribe", "psubscribe", "punsubscribe"]

/-- Element types the specification requires after a discriminator:
`[channel:string, count:integer]` for the acknowledgement kinds,
`[channel:string, payload:string]` for `message`,
`[pattern:string, channel:string, payload:string]` for `pmessage`. -/
def specShape (name : String) : List GoType :=
  if name ∈ ackKinds then [.string, .int64]
  else if name = "message" then [.string, .string]
  else if name = "pmessage" then [.string, .string, .string]
  else []

/-- Whether a value has the given dynamic type. -/
def Value.hasType : Value → GoType → Bool
  | .str _, .string => true
  | .int64 _, .int64 => true
  | _, _ => false

/-- Whether the values have, position by position, the given types (the
lengths being equal). -/
def wellTyped : List Value → List GoType → Bool
  | [], [] => true
  | v :: vs, t :: ts => v.hasType t && wellTyped vs ts
  | _, _ => false

/-- Number of elements the specification requires of a frame with the given
discriminator: 3 for the acknowledgement kinds and `message`, 4 for `pmessage`. -/
def specArity (name : String) : Nat :=
  1 + (specShape name).length

/-- Whether `n` is an `int64`. -/
def isInt64 (n : Int) : Prop :=
  -2 ^ 63 ≤ n ∧ n < 2 ^ 63

instance (n : Int) : Decidable (isInt64 n) := by
  unfold isInt64; infer_instance

/-- A connection whose inbound side holds the given read outcomes; nothing read
or written yet. -/
def connOf (rd : List (Except GoError (List Value))) : conn :=
  { ReadTimeout := 0, rd := rd, reads := [], wr := [], werr := none }

/-- A session holding the connection `connOf rd`. -/
def sessionOf (rd : List (Except GoError (List Value))) : PubSub :=
  { connPool := .ok (connOf rd) }

/-! ## Textual renderings -/

/-- Method `String` of `*Message`. -/
def Message.String (quote : String → String) (m : Message) : String :=
  Sprintf quote "Message<%s: %s>" [m.Channel, m.Payload]

/-- Method `String` of `*PMessage`. -/
def PMessage.String (quote : String → String) (m : PMessage) : String :=
  Sprintf quote "PMessage<%s: %s>" [m.Channel, m.Payload]

/-- Method `String` of `*Subscription`. -/
def Subscription.String (quote : String → String) (m : Subscription) : String :=
  Sprintf quote "%s: %s" [m.Kind, m.Channel]

/-! ## Sequences of receive calls -/

/-- One receive call made by a caller of the session. -/
inductive ReceiveCall where
  | Receive
  | ReceiveTimeout (timeout : Int)

/-- The timeout argument of the call: 0 for `Receive`. -/
def ReceiveCall.timeout : ReceiveCall → Int
  | .Receive => 0
  | .ReceiveTimeout timeout => timeout

/-- The call made on the session `c`. -/
def ReceiveCall.run (c : PubSub) : ReceiveCall → Result (Option Event × Option GoError) × PubSub
  | .Receive => c.Receive
  | .ReceiveTimeout timeout => c.ReceiveTimeout timeout

/-- The calls made one after the other on the session, each on the session the
previous one left (a caller that recovers from a panic goes on with the
session as the panic left it): their outcomes in order, and the final session. -/
def receiveCalls (c : PubSub) :
    List ReceiveCall → List (Result (Option Event × Option GoError)) × PubSub
  | [] => ([], c)
  | call :: calls =>
    match call.run c with
    | (r, c1) =>
      match receiveCalls c1 calls with
      | (rs, c2) => (r :: rs, c2)

/-- A well-formed frame, in the words of the specification: a known
discriminator followed by exactly the elements it requires, each of the
required type. -/
def wellFormed : List Value → Bool
  | .str name :: tail => decide (name ∈ knownNames) && wellTyped tail (specShape name)
  | _ => false

/-! ## The reader under a read deadline -/

/-- The timeout error of a read whose deadline passed (`i/o timeout`). -/
def ErrTimeout : GoError := .ext "i/o timeout"

/-- Modelled from the spec: the dedicated connection together with the time its
pending inputs take to arrive (the transport under `*conn` is not in
`pubsub.go`).  `delays` gives, for the reads still to come and in their order,
the time from the start of the read until its input is available, in the unit of
`time.Duration`; a read without an entry finds its input available at once. -/
structure TimedConn extends conn where
  delays : List Nat

/-- Modelled from the spec: the frame reader `cmd.parseReply(cn.rd)` under the
read deadline of the connection (`readFrame(Connection, deadline)`, which
"blocks subject to deadline" and "returns a timeout-specific error", where
"`timeout = 0` means block indefinitely").  Under the read timeout 0 the read
waits for its input however long that takes.  Under another read timeout that
is shorter than the wait, the read fails with the timeout error once that time
has passed, and the input stays pending with the rest of its wait.  In every
other case the read is the one of `SliceCmd.parseReply`. -/
def SliceCmd.parseReplyTimed (cmd : SliceCmd) (cn : TimedConn) :
    Option GoError × SliceCmd × TimedConn :=
  match cn.delays with
  | [] =>
    match cmd.parseReply cn.toconn with
    | (err, cmd1, cn1) => (err, cmd1, { toconn := cn1, delays := [] })
  | delay :: later =>
    if cn.ReadTimeout ≠ 0 ∧ cn.ReadTimeout < (delay : Int) then
      (some ErrTimeout, cmd,
        { cn with reads := cn.reads ++ [cn.ReadTimeout],
                  delays := (delay - cn.ReadTimeout.toNat) :: later })
    else
      match cmd.parseReply cn.toconn with
      | (err, cmd1, cn1) => (err, cmd1, { toconn := cn1, delays := later })

/-- The session over a connection whose inputs take time to arrive. -/
structure TimedPubSub where
  connPool : Except GoError TimedConn

/-- Modelled from the spec: the connection provider `c.conn()`. -/
def TimedPubSub.conn (c : TimedPubSub) : Except GoError TimedConn :=
  c.connPool

/-- Method `ReceiveTimeout`, its read being subject to the read deadline. -/
def TimedPubSub.ReceiveTimeout (c : TimedPubSub) (timeout : Int) :
    Result (Option Event × Option GoError) × TimedPubSub :=
  match c.conn with
  | .error err => (.ret (none, some err), c)
  | .ok cn =>
    let cn1 : TimedConn := { cn with ReadTimeout := timeout }
    let cmd := NewSliceCmd []
    match cmd.parseReplyTimed cn1 with
    | (some err, _, cn2) => (.ret (none, some err), { connPool := .ok cn2 })
    | (none, cmd1, cn2) =>
      let reply := cmd1.Val
      (decodeReply reply, { connPool := .ok cn2 })

/-- Method `Receive`, its read being subject to the read deadline. -/
def TimedPubSub.Receive (c : TimedPubSub) :
    Result (Option Event × Option GoError) × TimedPubSub :=
  c.ReceiveTimeout 0

/-- The session with every pending input already available: the waits are
forgotten. -/
def TimedPubSub.toPubSub (c : TimedPubSub) : PubSub :=
  match c.connPool with
  | .error err => { connPool := .error err }
  | .ok cn => { connPool := .ok cn.toconn }

/-- A session holding the connection `connOf rd` whose pending inputs take the
given times to arrive. -/
def timedSessionOf (rd : List (Except GoError (List Value))) (delays : List Nat) :
    TimedPubSub :=
  { connPool := .ok { toconn := connOf rd, delays := delays } }

/-! ## Shared lemmas -/

theorem toInt_of_isInt64 (n : Int) (h : isInt64 n) : toInt n = n := by
  obtain ⟨h1, h2⟩ := h
  unfold toInt intSize
  norm_num at h1 h2 ⊢
  omega

theorem ReceiveTimeout_of_frame (c : PubSub) (cn : conn) (timeout : Int)
    (reply : List Value) (rest : List (Except GoError (List Value)))
    (hc : c.connPool = .ok cn) (hrd : cn.rd = .ok reply :: rest) :
    (c.ReceiveTimeout timeout).1 = decodeReply reply := by
  simp [PubSub.ReceiveTimeout, PubSub.conn, hc, SliceCmd.parseReply, hrd, SliceCmd.Val,
    NewSliceCmd]

theorem ReceiveTimeout_sessionOf (timeout : Int) (reply : List Value)
    (rest : List (Except GoError (List Value))) :
    ((sessionOf (.ok reply :: rest)).ReceiveTimeout timeout).1 = decodeReply reply :=
  ReceiveTimeout_of_frame (sessionOf (.ok reply :: rest)) (connOf (.ok reply :: rest)) timeout
    reply rest rfl rfl

theorem decodeReply_ack (kind ch : String) (n : Int) (extra : List Value)
    (hk : kind ∈ ackKinds) :
    decodeReply (.str kind :: .str ch :: .int64 n :: extra)
      = .ret (some (.subscription { Kind := kind, Channel := ch, Count := toInt n }), none) := by
  simp only [ackKinds, List.mem_cons, List.mem_singleton, List.not_mem_nil, or_false] at hk
  simp [decodeReply, index, assertString, assertInt64, Result.bind, hk]

theorem decodeReply_message (ch p : String) (extra : List Value) :
    decodeReply (.str "message" :: .str ch :: .str p :: extra)
      = .ret (some (.message { Channel := ch, Payload := p }), none) := by
  simp [decodeReply, index, assertString, Result.bind]

theorem decodeReply_pmessage (pat ch p : String) (extra : List Value) :
    decodeReply (.str "pmessage" :: .str pat :: .str ch :: .str p :: extra)
      = .ret (some (.pmessage { Pattern := pat, Channel := ch, Payload := p }), none) := by
  simp [decodeReply, index, assertString, Result.bind]

theorem sprintfLoop_unsupported (quote : String → String) (s : String) :
    Sprintf quote "redis: unsupported message name: %q" [s]
      = "redis: unsupported message name: " ++ quote s := by
  simp [Sprintf, sprintfLoop, String.ext_iff]

theorem decodeReply_unknown (s : String) (tail : List Value) (hs : s ∉ knownNames) :
    decodeReply (.str s :: tail)
      = .ret (none, some (.Errorf "redis: unsupported message name: %q" [s])) := by
  simp only [knownNames, List.mem_cons, List.mem_singleton, List.not_mem_nil, or_false,
    not_or] at hs
  simp [decodeReply, index, assertString, Result.bind, hs]

theorem fillChannels_replicate (rest : List String) :
    ∀ (pre : List Value) (i : Nat), pre.length = 1 + i →
      fillChannels (pre ++ List.replicate rest.length Value.nil) i rest
        = .ret (pre ++ rest.map Value.str) := by
  induction rest with
  | nil => intro pre i _; simp [fillChannels]
  | cons channel rest ih =>
    intro pre i hpre
    have hlt : 1 + i < (pre ++ List.replicate (channel :: rest).length Value.nil).length := by
      simp [hpre]
    have hset : (pre ++ List.replicate (channel :: rest).length Value.nil).set (1 + i)
        (Value.str channel)
        = (pre ++ [Value.str channel]) ++ List.replicate rest.length Value.nil := by
      rw [List.set_append_right _ _ (by omega), ← hpre]
      simp [List.replicate_succ]
    have hnext := ih (pre ++ [Value.str channel]) (i + 1) (by simp [hpre]; omega)
    simp only [fillChannels, setIndex, hlt, if_true, Result.bind, hset, hnext]
    simp

theorem buildArgs_eq (cmd : String) (channels : List String) :
    buildArgs cmd channels = .ret (Value.str cmd :: channels.map Value.str) := by
  have h := fillChannels_replicate channels [Value.str cmd] 0 rfl
  have hrep : List.replicate (1 + channels.length) Value.nil
      = Value.nil :: List.replicate channels.length Value.nil := by
    rw [Nat.add_comm, List.replicate_succ]
  simp only [buildArgs, hrep, setIndex, List.length_cons, Nat.zero_lt_succ, if_true,
    List.set_cons_zero, Result.bind]
  simpa using h

theorem subscribe_of_conn (c : PubSub) (cn : conn) (cmd : String) (channels : List String)
    (hc : c.connPool = .ok cn) :
    c.subscribe cmd channels
      = (.ret cn.werr,
          { connPool := .ok { cn with wr := cn.wr ++ [Value.str cmd :: channels.map Value.str] } })
    := by
  simp [PubSub.subscribe, PubSub.conn, hc, buildArgs_eq, conn.writeCmds, NewSliceCmd]

theorem ReceiveTimeout_fst (c : PubSub) (timeout : Int) :
    (c.ReceiveTimeout timeout).1
      = match c.connPool with
        | .error err => .ret (none, some err)
        | .ok cn =>
          match cn.rd with
          | [] => .ret (none, some EOF)
          | .error err :: _ => .ret (none, some err)
          | .ok reply :: _ => decodeReply reply := by
  rcases hc : c.connPool with err | cn
  · simp [PubSub.ReceiveTimeout, PubSub.conn, hc]
  · rcases hrd : cn.rd with _ | ⟨_ | _, rest⟩ <;>
      simp [PubSub.ReceiveTimeout, PubSub.conn, hc, SliceCmd.parseReply, hrd, SliceCmd.Val,
        NewSliceCmd]

theorem ReceiveTimeout_snd (c : PubSub) (cn : conn) (timeout : Int)
    (hc : c.connPool = .ok cn) :
    (c.ReceiveTimeout timeout).2
      = { connPool := .ok { cn with ReadTimeout := timeout, rd := cn.rd.tail,
                                    reads := cn.reads ++ [timeout] } } := by
  rcases hrd : cn.rd with _ | ⟨_ | _, rest⟩ <;>
    simp [PubSub.ReceiveTimeout, PubSub.conn, hc, SliceCmd.parseReply, hrd, NewSliceCmd]

theorem ReceiveTimeout_of_no_conn (c : PubSub) (err : GoError) (timeout : Int)
    (hc : c.connPool = .error err) :
    c.ReceiveTimeout timeout = (.ret (none, some err), c) := by
  simp [PubSub.ReceiveTimeout, PubSub.conn, hc]

theorem run_snd (c : PubSub) (cn : conn) (call : ReceiveCall) (hc : c.connPool = .ok cn) :
    (call.run c).2
      = { connPool := .ok { cn with ReadTimeout := call.timeout, rd := cn.rd.tail,
                                    reads := cn.reads ++ [call.timeout] } } := by
  cases call
  · exact ReceiveTimeout_snd c cn 0 hc
  · exact ReceiveTimeout_snd c cn _ hc

theorem run_fst (c : PubSub) (call : ReceiveCall) :
    (call.run c).1 = (c.ReceiveTimeout call.timeout).1 := by
  cases call <;> rfl

theorem receiveCalls_cons (c : PubSub) (call : ReceiveCall) (calls : List ReceiveCall) :
    receiveCalls c (call :: calls)
      = ((call.run c).1 :: (receiveCalls (call.run c).2 calls).1,
          (receiveCalls (call.run c).2 calls).2) := by
  simp [receiveCalls]

theorem receiveCalls_reads (calls : List ReceiveCall) :
    ∀ (c : PubSub) (cn : conn), c.connPool = .ok cn →
      ∃ cn1 : conn, (receiveCalls c calls).2.connPool = .ok cn1
        ∧ cn1.reads = cn.reads ++ calls.map ReceiveCall.timeout := by
  induction calls with
  | nil => intro c cn hc; exact ⟨cn, hc, by simp⟩
  | cons call calls ih =>
    intro c cn hc
    obtain ⟨cn1, h1, h2⟩ := ih (call.run c).2 _ (by rw [run_snd c cn call hc])
    refine ⟨cn1, ?_, ?_⟩
    · rw [receiveCalls_cons]; exact h1
    · rw [h2]; simp

theorem run_ReadTimeout_irrelevant (c : PubSub) (cn : conn) (call : ReceiveCall) (t0 : Int)
    (hc : c.connPool = .ok cn) :
    call.run { connPool := .ok { cn with ReadTimeout := t0 } } = call.run c := by
  apply Prod.ext
  · rw [run_fst, run_fst, ReceiveTimeout_fst, ReceiveTimeout_fst, hc]
  · rw [run_snd _ { cn with ReadTimeout := t0 } call rfl, run_snd c cn call hc]

theorem ReceiveTimeout_of_read_error (c : PubSub) (cn : conn) (timeout : Int)
    (err : GoError) (rest : List (Except GoError (List Value)))
    (hc : c.connPool = .ok cn) (hrd : cn.rd = .error err :: rest) :
    c.ReceiveTimeout timeout
      = (.ret (none, some err),
          { connPool := .ok { cn with ReadTimeout := timeout, rd := rest,
                                      reads := cn.reads ++ [timeout] } }) := by
  simp [PubSub.ReceiveTimeout, PubSub.conn, hc, SliceCmd.parseReply, hrd, NewSliceCmd]

theorem subscribe_of_no_conn (c : PubSub) (err : GoError) (cmd : String)
    (channels : List String) (hc : c.connPool = .error err) :
    c.subscribe cmd channels = (.ret (some err), c) := by
  simp [PubSub.subscribe, PubSub.conn, hc]

theorem decodeReply_event (reply : List Value) (ev : Event) (err : Option GoError)
    (h : decodeReply reply = .ret (some ev, err)) :
    err = none ∧ ∃ (name : String) (tail : List Value), reply = .str name :: tail
      ∧ ((name ∈ ackKinds ∧ ∃ m : Subscription, ev = .subscription m ∧ m.Kind = name)
        ∨ (name = "message" ∧ ∃ m : Message, ev = .message m)
        ∨ (name = "pmessage" ∧ ∃ m : PMessage, ev = .pmessage m)) := by
  rcases reply with _ | ⟨v, tail⟩
  · simp [decodeReply, index, Result.bind] at h
  · cases v with
    | str name =>
      by_cases h1 : name ∈ ackKinds
      · have h1' := h1
        simp only [ackKinds, List.mem_cons, List.mem_singleton, List.not_mem_nil, or_false] at h1'
        rcases tail with _ | ⟨a, _ | ⟨b, t⟩⟩ <;> [skip; cases a; (cases a <;> cases b)] <;>
          simp [decodeReply, index, assertString, assertInt64, Result.bind, h1'] at h
        obtain ⟨h2, h3⟩ := h
        exact ⟨h3.symm, name, _, rfl, Or.inl ⟨h1, _, h2.symm, rfl⟩⟩
      · simp only [ackKinds, List.mem_cons, List.mem_singleton, List.not_mem_nil, or_false]
          at h1
        by_cases h2 : name = "message"
        · subst h2
          rcases tail with _ | ⟨a, _ | ⟨b, t⟩⟩ <;> [skip; cases a; (cases a <;> cases b)] <;>
            simp [decodeReply, index, assertString, Result.bind] at h
          obtain ⟨h2, h3⟩ := h
          exact ⟨h3.symm, _, _, rfl, Or.inr (Or.inl ⟨rfl, _, h2.symm⟩)⟩
        · by_cases h3 : name = "pmessage"
          · subst h3
            rcases tail with _ | ⟨a, _ | ⟨b, _ | ⟨d, t⟩⟩⟩ <;>
              [skip; cases a; (cases a <;> cases b); (cases a <;> cases b <;> cases d)] <;>
              simp [decodeReply, index, assertString, Result.bind] at h
            obtain ⟨h4, h5⟩ := h
            exact ⟨h5.symm, _, _, rfl, Or.inr (Or.inr ⟨rfl, _, h4.symm⟩)⟩
          · simp [decodeReply, index, assertString, Result.bind, h1, h2, h3] at h
    | nil => simp [decodeReply, index, assertString, Result.bind] at h
    | int64 n => simp [decodeReply, index, assertString, Result.bind] at h
    | slice vs => simp [decodeReply, index, assertString, Result.bind] at h

theorem decodeReply_of_wellFormed (frame : List Value) (h : wellFormed frame = true) :
    ∃ ev : Event, decodeReply frame = .ret (some ev, none) := by
  rcases frame with _ | ⟨v, tail⟩
  · simp [wellFormed] at h
  · cases v <;> simp [wellFormed] at h
    obtain ⟨hname, hty⟩ := h
    simp only [knownNames, List.mem_cons, List.mem_singleton, List.not_mem_nil, or_false]
      at hname
    rcases hname with h | h | h | h | h | h <;> subst h <;>
      simp [specShape, ackKinds] at hty <;>
      rcases tail with _ | ⟨a, _ | ⟨b, _ | ⟨d, _ | ⟨e, t⟩⟩⟩⟩ <;>
      simp [wellTyped] at hty <;>
      first
        | (cases a <;> cases b <;>
            first
              | (simp [Value.hasType] at hty; done)
              | exact ⟨_, rfl⟩)
        | (cases a <;> cases b <;> cases d <;>
            first
              | (simp [Value.hasType] at hty; done)
              | exact ⟨_, rfl⟩)

theorem ReceiveTimeout_event (c : PubSub) (timeout : Int) (ev : Event)
    (err : Option GoError) (h : (c.ReceiveTimeout timeout).1 = .ret (some ev, err)) :
    ∃ (cn : conn) (frame : List Value) (rest : List (Except GoError (List Value))),
      c.connPool = .ok cn ∧ cn.rd = .ok frame :: rest
        ∧ decodeReply frame = .ret (some ev, err) := by
  rw [ReceiveTimeout_fst] at h
  rcases hc : c.connPool with e | cn
  · simp [hc] at h
  · rcases hrd : cn.rd with _ | ⟨e | frame, rest⟩
    · simp [hc, hrd] at h
    · simp [hc, hrd] at h
    · simp only [hc, hrd] at h
      exact ⟨cn, frame, rest, rfl, hrd, h⟩

theorem receiveCalls_frames (frames : List (List Value)) :
    ∀ (c : PubSub) (cn : conn) (calls : List ReceiveCall)
      (rest : List (Except GoError (List Value))),
      c.connPool = .ok cn → cn.rd = frames.map Except.ok ++ rest →
      calls.length = frames.length →
      (receiveCalls c calls).1 = frames.map decodeReply
        ∧ ∃ cn1 : conn, (receiveCalls c calls).2.connPool = .ok cn1 ∧ cn1.rd = rest := by
  induction frames with
  | nil =>
    intro c cn calls rest hc hrd hlen
    have hcalls : calls = [] := List.length_eq_zero.mp hlen
    subst hcalls
    exact ⟨rfl, cn, hc, by simpa using hrd⟩
  | cons frame frames ih =>
    intro c cn calls rest hc hrd hlen
    rcases calls with _ | ⟨call, calls⟩
    · simp at hlen
    · have hrd1 : cn.rd = .ok frame :: (frames.map Except.ok ++ rest) := by simpa using hrd
      have hstep := ih (call.run c).2 _ calls rest (by rw [run_snd c cn call hc])
        (by simp [hrd1]) (by simpa using hlen)
      rw [receiveCalls_cons]
      refine ⟨?_, hstep.2⟩
      simp only [List.map_cons, hstep.1, run_fst,
        ReceiveTimeout_of_frame c cn call.timeout frame _ hc hrd1]

theorem bind_eq_ret {α β : Type} (r : Result α) (f : α → Result β) (b : β)
    (h : r.bind f = .ret b) : ∃ a : α, r = .ret a ∧ f a = .ret b := by
  cases r with
  | ret a => exact ⟨a, rfl, h⟩
  | panic p => simp [Result.bind] at h

theorem decodeReply_no_event (reply : List Value) (err : Option GoError)
    (h : decodeReply reply = .ret (none, err)) :
    ∃ (name : String) (tail : List Value), reply = .str name :: tail ∧ name ∉ knownNames
      ∧ err = some (.Errorf "redis: unsupported message name: %q" [name]) := by
  unfold decodeReply at h
  obtain ⟨v0, h0, h⟩ := bind_eq_ret _ _ _ h
  obtain ⟨name, h1, h⟩ := bind_eq_ret _ _ _ h
  have hreply : ∃ tail, reply = .str name :: tail := by
    rcases reply with _ | ⟨v, tail⟩
    · simp [index] at h0
    · simp [index] at h0
      subst h0
      cases v <;> simp [assertString] at h1
      subst h1
      exact ⟨tail, rfl⟩
  obtain ⟨tail, hreply⟩ := hreply
  split_ifs at h with c1 c2 c3
  · obtain ⟨_, _, h⟩ := bind_eq_ret _ _ _ h
    obtain ⟨_, _, h⟩ := bind_eq_ret _ _ _ h
    obtain ⟨_, _, h⟩ := bind_eq_ret _ _ _ h
    obtain ⟨_, _, h⟩ := bind_eq_ret _ _ _ h
    simp at h
  · obtain ⟨_, _, h⟩ := bind_eq_ret _ _ _ h
    obtain ⟨_, _, h⟩ := bind_eq_ret _ _ _ h
    obtain ⟨_, _, h⟩ := bind_eq_ret _ _ _ h
    obtain ⟨_, _, h⟩ := bind_eq_ret _ _ _ h
    simp at h
  · obtain ⟨_, _, h⟩ := bind_eq_ret _ _ _ h
    obtain ⟨_, _, h⟩ := bind_eq_ret _ _ _ h
    obtain ⟨_, _, h⟩ := bind_eq_ret _ _ _ h
    obtain ⟨_, _, h⟩ := bind_eq_ret _ _ _ h
    obtain ⟨_, _, h⟩ := bind_eq_ret _ _ _ h
    obtain ⟨_, _, h⟩ := bind_eq_ret _ _ _ h
    simp at h
  · refine ⟨name, tail, hreply, ?_, ?_⟩
    · simp only [knownNames, List.mem_cons, List.mem_singleton, List.not_mem_nil, or_false]
      tauto
    · simp at h
      exact h.symm

theorem decodeReply_trichotomy (reply : List Value) :
    (∃ ev : Event, decodeReply reply = .ret (some ev, none))
      ∨ (∃ e : GoError, decodeReply reply = .ret (none, some e))
      ∨ (∃ p : Panic, decodeReply reply = .panic p) := by
  rcases hr : decodeReply reply with ⟨o, err⟩ | p
  · cases o with
    | some ev =>
      obtain ⟨herr, _⟩ := decodeReply_event reply ev err hr
      subst herr
      exact Or.inl ⟨ev, rfl⟩
    | none =>
      obtain ⟨name, tail, _, _, herr⟩ := decodeReply_no_event reply err hr
      subst herr
      exact Or.inr (Or.inl ⟨_, rfl⟩)
  · exact Or.inr (Or.inr ⟨p, rfl⟩)

theorem decodeReply_nil : decodeReply [] = .panic (.indexOutOfRange 0 0) := by
  simp [decodeReply, index, Result.bind]

theorem decodeReply_not_string (v : Value) (tail : List Value)
    (hv : v.hasType .string = false) :
    decodeReply (v :: tail) = .panic (.interfaceConversion v .string) := by
  cases v <;> simp [Value.hasType] at hv <;>
    simp [decodeReply, index, assertString, Result.bind]

theorem String_of_Sprintf (quote : String → String) (a b : String) :
    Sprintf quote "Message<%s: %s>" [a, b] = "Message<" ++ a ++ ": " ++ b ++ ">"
      ∧ Sprintf quote "PMessage<%s: %s>" [a, b] = "PMessage<" ++ a ++ ": " ++ b ++ ">"
      ∧ Sprintf quote "%s: %s" [a, b] = a ++ ": " ++ b := by
  refine ⟨?_, ?_, ?_⟩ <;> simp [Sprintf, sprintfLoop, String.ext_iff]

theorem parseReplyTimed_zero (cmd : SliceCmd) (cn : TimedConn) (h : cn.ReadTimeout = 0) :
    cmd.parseReplyTimed cn
      = ((cmd.parseReply cn.toconn).1, (cmd.parseReply cn.toconn).2.1,
          { toconn := (cmd.parseReply cn.toconn).2.2, delays := cn.delays.tail }) := by
  rcases hd : cn.delays with _ | ⟨delay, later⟩ <;>
    simp [SliceCmd.parseReplyTimed, hd, h]

theorem TimedReceive_eq (c : TimedPubSub) :
    (c.Receive).1 = (c.toPubSub.Receive).1
      ∧ (c.Receive).2.toPubSub = (c.toPubSub.Receive).2 := by
  rcases hc : c.connPool with err | cn
  · simp [TimedPubSub.Receive, TimedPubSub.ReceiveTimeout, TimedPubSub.conn, hc,
      TimedPubSub.toPubSub, PubSub.Receive, PubSub.ReceiveTimeout, PubSub.conn]
  · rcases hrd : cn.rd with _ | ⟨_ | _, rest⟩ <;>
      simp [TimedPubSub.Receive, TimedPubSub.ReceiveTimeout, TimedPubSub.conn, hc,
        TimedPubSub.toPubSub, PubSub.Receive, PubSub.ReceiveTimeout, PubSub.conn,
        parseReplyTimed_zero, SliceCmd.parseReply, hrd, NewSliceCmd, SliceCmd.Val]

theorem TimedReceive_delays (c : TimedPubSub) (cn : TimedConn) (hc : c.connPool = .ok cn) :
    ∃ cn1 : TimedConn, (c.Receive).2.connPool = .ok cn1 ∧ cn1.delays = cn.delays.tail
      ∧ cn1.rd = cn.rd.tail ∧ cn1.reads = cn.reads ++ [0] ∧ cn1.ReadTimeout = 0 := by
  rcases hrd : cn.rd with _ | ⟨_ | _, rest⟩ <;>
    simp [TimedPubSub.Receive, TimedPubSub.ReceiveTimeout, TimedPubSub.conn, hc,
      parseReplyTimed_zero, SliceCmd.parseReply, hrd, NewSliceCmd]

theorem TimedReceiveTimeout_late (c : TimedPubSub) (cn : TimedConn) (timeout : Int)
    (delay : Nat) (later : List Nat) (hc : c.connPool = .ok cn)
    (hd : cn.delays = delay :: later) (h0 : timeout ≠ 0) (hlt : timeout < (delay : Int)) :
    c.ReceiveTimeout timeout
      = (.ret (none, some ErrTimeout),
          { connPool := .ok { cn with ReadTimeout := timeout,
                                      reads := cn.reads ++ [timeout],
                                      delays := (delay - timeout.toNat) :: later } }) := by
  simp [TimedPubSub.ReceiveTimeout, TimedPubSub.conn, hc, SliceCmd.parseReplyTimed, hd, h0,
    hlt, NewSliceCmd]

theorem TimedReceiveTimeout_in_time (c : TimedPubSub) (cn : TimedConn) (timeout : Int)
    (delay : Nat) (later : List Nat) (reply : List Value)
    (rest : List (Except GoError (List Value))) (hc : c.connPool = .ok cn)
    (hd : cn.delays = delay :: later) (hrd : cn.rd = .ok reply :: rest)
    (hle : (delay : Int) ≤ timeout) :
    (c.ReceiveTimeout timeout).1 = decodeReply reply := by
  have hnot : ¬ (timeout ≠ 0 ∧ timeout < (delay : Int)) := by
    rintro ⟨_, hlt⟩
    omega
  simp [TimedPubSub.ReceiveTimeout, TimedPubSub.conn, hc, SliceCmd.parseReplyTimed, hd, hnot,
    SliceCmd.parseReply, hrd, NewSliceCmd, SliceCmd.Val]

/-! ## Decoding of well-formed frames -/

/-- C1: when the frame read is exactly `[kind, ch, n]` with `kind` one of the
four acknowledgement kinds, `ch` a string and `n` an `int64`, `ReceiveTimeout`
returns no error and the `Subscription` with `Kind = kind`, `Channel = ch`,
`Count = n`. -/
theorem ReceiveTimeout_subscription (c : PubSub) (cn : conn) (timeout : Int)
    (rest : List (Except GoError (List Value))) (kind ch : String) (n : Int)
    (hk : kind ∈ ["subscribe", "unsubscribe", "psubscribe", "punsubscribe"])
    (hn : isInt64 n) (hc : c.connPool = .ok cn)
    (hrd : cn.rd = .ok [.str kind, .str ch, .int64 n] :: rest) :
    (c.ReceiveTimeout timeout).1
      = .ret (some (.subscription { Kind := kind, Channel := ch, Count := n }), none) := by
  rw [ReceiveTimeout_of_frame c cn timeout _ rest hc hrd, decodeReply_ack kind ch n [] hk,
    toInt_of_isInt64 n hn]

theorem ReceiveTimeout_subscription_witness :
    ((sessionOf [.ok [.str "subscribe", .str "foo", .int64 1]]).ReceiveTimeout 0).1
        = .ret (some (.subscription { Kind := "subscribe", Channel := "foo", Count := 1 }), none)
      ∧ ((sessionOf [.ok [.str "punsubscribe", .str "f*", .int64 0]]).ReceiveTimeout 5).1
        = .ret (some (.subscription { Kind := "punsubscribe", Channel := "f*", Count := 0 }),
            none) :=
  ⟨ReceiveTimeout_subscription _ _ 0 [] "subscribe" "foo" 1 (by decide) (by decide) rfl rfl,
   ReceiveTimeout_subscription _ _ 5 [] "punsubscribe" "f*" 0 (by decide) (by decide) rfl rfl⟩

/-- C2: when the frame read is exactly `["message", ch, p]`, `ReceiveTimeout`
returns no error and the `Message` with `Channel = ch`, `Payload = p`. -/
theorem ReceiveTimeout_message (c : PubSub) (cn : conn) (timeout : Int)
    (rest : List (Except GoError (List Value))) (ch p : String)
    (hc : c.connPool = .ok cn)
    (hrd : cn.rd = .ok [.str "message", .str ch, .str p] :: rest) :
    (c.ReceiveTimeout timeout).1
      = .ret (some (.message { Channel := ch, Payload := p }), none) := by
  rw [ReceiveTimeout_of_frame c cn timeout _ rest hc hrd, decodeReply_message ch p []]

theorem ReceiveTimeout_message_witness :
    ((sessionOf [.ok [.str "message", .str "foo", .str "bar"]]).ReceiveTimeout 0).1
      = .ret (some (.message { Channel := "foo", Payload := "bar" }), none) :=
  ReceiveTimeout_message _ _ 0 [] "foo" "bar" rfl rfl

/-- C3: when the frame read is exactly `["pmessage", pat, ch, p]`,
`ReceiveTimeout` returns no error and a `PMessage` whose `Pattern` is `pat`
(element 1), whose `Channel` is `ch` (element 2) and whose `Payload` is `p`
(element 3), whatever the order in which the struct declares its fields. -/
theorem ReceiveTimeout_pmessage (c : PubSub) (cn : conn) (timeout : Int)
    (rest : List (Except GoError (List Value))) (pat ch p : String)
    (hc : c.connPool = .ok cn)
    (hrd : cn.rd = .ok [.str "pmessage", .str pat, .str ch, .str p] :: rest) :
    ∃ m : PMessage, (c.ReceiveTimeout timeout).1 = .ret (some (.pmessage m), none)
      ∧ m.Pattern = pat ∧ m.Channel = ch ∧ m.Payload = p := by
  refine ⟨{ Pattern := pat, Channel := ch, Payload := p }, ?_, rfl, rfl, rfl⟩
  rw [ReceiveTimeout_of_frame c cn timeout _ rest hc hrd, decodeReply_pmessage pat ch p []]

theorem ReceiveTimeout_pmessage_witness :
    ∃ m : PMessage,
      ((sessionOf [.ok [.str "pmessage", .str "f*", .str "foo", .str "bar"]]).ReceiveTimeout 0).1
        = .ret (some (.pmessage m), none)
      ∧ m.Pattern = "f*" ∧ m.Channel = "foo" ∧ m.Payload = "bar" :=
  ReceiveTimeout_pmessage _ _ 0 [] "f*" "foo" "bar" rfl rfl

/-! ## Unknown discriminators -/

/-- C4: when the first element of the frame read is a string `s` that is none
of the six known discriminators, then whatever the remaining elements
`ReceiveTimeout` returns no event and the error built by
`fmt.Errorf("redis: unsupported message name: %q", s)`, whose text is
`redis: unsupported message name: ` followed by `s` quoted. -/
theorem ReceiveTimeout_unsupported (c : PubSub) (cn : conn) (timeout : Int)
    (rest : List (Except GoError (List Value))) (s : String) (tail : List Value)
    (hs : s ∉ ["subscribe", "unsubscribe", "psubscribe", "punsubscribe", "message", "pmessage"])
    (hc : c.connPool = .ok cn) (hrd : cn.rd = .ok (.str s :: tail) :: rest) :
    ∃ err : GoError, (c.ReceiveTimeout timeout).1 = .ret (none, some err)
      ∧ err = .Errorf "redis: unsupported message name: %q" [s]
      ∧ ∀ quote : String → String,
          err.Error quote = "redis: unsupported message name: " ++ quote s := by
  refine ⟨_, ?_, rfl, fun quote => sprintfLoop_unsupported quote s⟩
  rw [ReceiveTimeout_of_frame c cn timeout _ rest hc hrd, decodeReply_unknown s tail hs]

theorem ReceiveTimeout_unsupported_witness :
    ∃ err : GoError, ((sessionOf [.ok [.str "ping"]]).ReceiveTimeout 0).1 = .ret (none, some err)
      ∧ err = .Errorf "redis: unsupported message name: %q" ["ping"]
      ∧ ∀ quote : String → String,
          err.Error quote = "redis: unsupported message name: " ++ quote "ping" :=
  ReceiveTimeout_unsupported _ _ 0 [] "ping" [] (by decide) rfl rfl

/-! ## Frames that are too short, wrongly typed, or too long -/

/-- C5, as amended: when the frame read starts with one of the six known
discriminators and has fewer elements than that discriminator requires,
`ReceiveTimeout` does not return at all: it stops with a run-time panic, so it
yields neither an event nor an error value. -/
theorem ReceiveTimeout_short_frame (c : PubSub) (cn : conn) (timeout : Int)
    (rest : List (Except GoError (List Value))) (name : String) (tail : List Value)
    (hname : name ∈ knownNames) (hlen : (Value.str name :: tail).length < specArity name)
    (hc : c.connPool = .ok cn) (hrd : cn.rd = .ok (.str name :: tail) :: rest) :
    ∃ p : Panic, (c.ReceiveTimeout timeout).1 = .panic p := by
  rw [ReceiveTimeout_of_frame c cn timeout _ rest hc hrd]
  simp only [knownNames, List.mem_cons, List.mem_singleton, List.not_mem_nil, or_false] at hname
  rcases hname with h | h | h | h | h | h <;> subst h <;>
    simp [specArity, specShape, ackKinds] at hlen <;>
    rcases tail with _ | ⟨a, _ | ⟨b, _ | ⟨d, t⟩⟩⟩ <;>
    simp at hlen <;>
    first
      | (simp [decodeReply, index, assertString, assertInt64, Result.bind]; done)
      | (cases a <;> simp [decodeReply, index, assertString, assertInt64, Result.bind]; done)
      | (cases a <;> cases b <;>
          simp [decodeReply, index, assertString, assertInt64, Result.bind]; done)
      | omega

theorem ReceiveTimeout_short_frame_witness :
    ∃ p : Panic,
      ((sessionOf [.ok [.str "pmessage", .str "f*", .str "foo"]]).ReceiveTimeout 0).1
        = .panic p :=
  ReceiveTimeout_short_frame _ _ 0 [] "pmessage" [.str "f*", .str "foo"] (by decide)
    (by decide) rfl rfl

/-- C5 as stated fails: on the frame `["message", "foo"]` the call raises the
panic `index out of range [2] with length 2`; it returns no error value. -/
theorem ReceiveTimeout_short_frame_counterexample :
    ((sessionOf [.ok [.str "message", .str "foo"]]).ReceiveTimeout 0).1
        = .panic (.indexOutOfRange 2 2)
      ∧ ¬ ∃ r : Option Event × Option GoError,
          ((sessionOf [.ok [.str "message", .str "foo"]]).ReceiveTimeout 0).1 = .ret r := by
  have h : ((sessionOf [.ok [.str "message", .str "foo"]]).ReceiveTimeout 0).1
      = .panic (.indexOutOfRange 2 2) := by
    rw [ReceiveTimeout_sessionOf]
    simp [decodeReply, index, assertString, Result.bind]
  refine ⟨h, ?_⟩
  rintro ⟨r, hr⟩
  rw [h] at hr
  cases hr

/-- C6, as amended: when the frame read starts with one of the six known
discriminators and has exactly the required number of elements, but some
element after the discriminator has not the required type, `ReceiveTimeout`
does not return: it stops with the interface-conversion panic of a failed type
assertion on an element of the frame of another type than the one asserted, so
it yields neither an event nor an error value. -/
theorem ReceiveTimeout_wrong_type (c : PubSub) (cn : conn) (timeout : Int)
    (rest : List (Except GoError (List Value))) (name : String) (tail : List Value)
    (hname : name ∈ knownNames) (hlen : (Value.str name :: tail).length = specArity name)
    (hty : wellTyped tail (specShape name) = false)
    (hc : c.connPool = .ok cn) (hrd : cn.rd = .ok (.str name :: tail) :: rest) :
    ∃ (got : Value) (want : GoType),
      (c.ReceiveTimeout timeout).1 = .panic (.interfaceConversion got want)
        ∧ got ∈ tail ∧ got.hasType want = false := by
  rw [ReceiveTimeout_of_frame c cn timeout _ rest hc hrd]
  simp only [knownNames, List.mem_cons, List.mem_singleton, List.not_mem_nil, or_false] at hname
  rcases hname with h | h | h | h | h | h <;> subst h <;>
    simp [specArity, specShape, ackKinds] at hlen hty <;>
    rcases tail with _ | ⟨a, _ | ⟨b, _ | ⟨d, _ | ⟨e, t⟩⟩⟩⟩ <;>
    simp at hlen <;>
    first
      | (cases a <;> cases b <;>
          first
            | (simp [wellTyped, Value.hasType] at hty; done)
            | exact ⟨_, _, rfl, by simp, rfl⟩)
      | (cases a <;> cases b <;> cases d <;>
          first
            | (simp [wellTyped, Value.hasType] at hty; done)
            | exact ⟨_, _, rfl, by simp, rfl⟩)

theorem ReceiveTimeout_wrong_type_witness :
    ∃ (got : Value) (want : GoType),
      ((sessionOf [.ok [.str "message", .str "foo", .int64 7]]).ReceiveTimeout 0).1
          = .panic (.interfaceConversion got want)
        ∧ got ∈ [Value.str "foo", Value.int64 7] ∧ got.hasType want = false :=
  ReceiveTimeout_wrong_type _ (connOf _) 0 [] "message" [.str "foo", .int64 7] (by decide)
    (by decide) rfl rfl rfl

/-- C6 as stated fails: on the frame `["subscribe", "foo", "1"]` the call raises
the panic of the failed assertion `reply[2].(int64)`; it returns no error value. -/
theorem ReceiveTimeout_wrong_type_counterexample :
    ((sessionOf [.ok [.str "subscribe", .str "foo", .str "1"]]).ReceiveTimeout 0).1
        = .panic (.interfaceConversion (.str "1") .int64)
      ∧ ¬ ∃ r : Option Event × Option GoError,
          ((sessionOf [.ok [.str "subscribe", .str "foo", .str "1"]]).ReceiveTimeout 0).1
            = .ret r := by
  have h : ((sessionOf [.ok [.str "subscribe", .str "foo", .str "1"]]).ReceiveTimeout 0).1
      = .panic (.interfaceConversion (.str "1") .int64) := by
    rw [ReceiveTimeout_sessionOf]
    simp [decodeReply, index, assertString, assertInt64, Result.bind]
  refine ⟨h, ?_⟩
  rintro ⟨r, hr⟩
  rw [h] at hr
  cases hr

/-- C7, as amended: the arity a discriminator requires is a minimum, not an
exact count.  When the frame read is a well-formed frame followed by any extra
elements, `ReceiveTimeout` returns no error and the event built from the leading
elements, the extra ones being ignored. -/
theorem ReceiveTimeout_extra_elements (c : PubSub) (cn : conn) (timeout : Int)
    (rest : List (Except GoError (List Value))) (kind pat ch p : String) (n : Int)
    (extra : List Value) (hk : kind ∈ ackKinds) (hn : isInt64 n)
    (hc : c.connPool = .ok cn) :
    (cn.rd = .ok ([.str kind, .str ch, .int64 n] ++ extra) :: rest →
        (c.ReceiveTimeout timeout).1
          = .ret (some (.subscription { Kind := kind, Channel := ch, Count := n }), none))
      ∧ (cn.rd = .ok ([.str "message", .str ch, .str p] ++ extra) :: rest →
        (c.ReceiveTimeout timeout).1
          = .ret (some (.message { Channel := ch, Payload := p }), none))
      ∧ (cn.rd = .ok ([.str "pmessage", .str pat, .str ch, .str p] ++ extra) :: rest →
        (c.ReceiveTimeout timeout).1
          = .ret (some (.pmessage { Pattern := pat, Channel := ch, Payload := p }), none)) := by
  refine ⟨fun hrd => ?_, fun hrd => ?_, fun hrd => ?_⟩
  · rw [ReceiveTimeout_of_frame c cn timeout _ rest hc hrd]
    exact (decodeReply_ack kind ch n extra hk).trans (by rw [toInt_of_isInt64 n hn])
  · rw [ReceiveTimeout_of_frame c cn timeout _ rest hc hrd]
    exact decodeReply_message ch p extra
  · rw [ReceiveTimeout_of_frame c cn timeout _ rest hc hrd]
    exact decodeReply_pmessage pat ch p extra

theorem ReceiveTimeout_extra_elements_witness :
    ((sessionOf [.ok [.str "pmessage", .str "f*", .str "foo", .str "bar", .int64 9]]
        ).ReceiveTimeout 0).1
      = .ret (some (.pmessage { Pattern := "f*", Channel := "foo", Payload := "bar" }), none) :=
  (ReceiveTimeout_extra_elements (sessionOf _) (connOf _) 0 [] "subscribe" "f*" "foo" "bar" 1
    [.int64 9] (by decide) (by decide) rfl).2.2 rfl

/-- C7 as stated fails: the frame `["message", "foo", "bar", "baz"]`, one element
too long, is not rejected: the call returns the `Message` built from its leading
elements, and no error. -/
theorem ReceiveTimeout_extra_elements_counterexample :
    ((sessionOf [.ok [.str "message", .str "foo", .str "bar", .str "baz"]]).ReceiveTimeout 0).1
      = .ret (some (.message { Channel := "foo", Payload := "bar" }), none) := by
  rw [ReceiveTimeout_sessionOf]
  exact decodeReply_message "foo" "bar" [.str "baz"]

/-! ## Command writer -/

/-- C8: for every verb and every list of targets, the argument slice built by
`subscribe` is the verb followed by the targets in their order, of length
`1 +` the number of targets; on an acquired connection the call hands exactly
that one frame to the writer and returns the result of the write; and
`Subscribe`, `PSubscribe`, `Unsubscribe`, `PUnsubscribe` are `subscribe` with
the verbs `SUBSCRIBE`, `PSUBSCRIBE`, `UNSUBSCRIBE`, `PUNSUBSCRIBE`. -/
theorem subscribe_frame (c : PubSub) (cn : conn) (cmd : String) (channels : List String)
    (hc : c.connPool = .ok cn) :
    buildArgs cmd channels = .ret (Value.str cmd :: channels.map Value.str)
      ∧ (Value.str cmd :: channels.map Value.str).length = 1 + channels.length
      ∧ (c.subscribe cmd channels).1 = .ret cn.werr
      ∧ (∃ cn1 : conn, (c.subscribe cmd channels).2.connPool = .ok cn1
          ∧ cn1.wr = cn.wr ++ [Value.str cmd :: channels.map Value.str])
      ∧ c.Subscribe channels = c.subscribe "SUBSCRIBE" channels
      ∧ c.PSubscribe channels = c.subscribe "PSUBSCRIBE" channels
      ∧ c.Unsubscribe channels = c.subscribe "UNSUBSCRIBE" channels
      ∧ c.PUnsubscribe channels = c.subscribe "PUNSUBSCRIBE" channels := by
  refine ⟨buildArgs_eq cmd channels, by simp [Nat.add_comm], ?_, ?_, rfl, rfl, rfl, rfl⟩
  · rw [subscribe_of_conn c cn cmd channels hc]
  · rw [subscribe_of_conn c cn cmd channels hc]
    exact ⟨_, rfl, rfl⟩

theorem subscribe_frame_witness :
    ∃ cn1 : conn, ((sessionOf []).subscribe "SUBSCRIBE" ["a", "b", "a"]).2.connPool = .ok cn1
      ∧ cn1.wr = [[.str "SUBSCRIBE", .str "a", .str "b", .str "a"]] :=
  (subscribe_frame (sessionOf []) (connOf []) "SUBSCRIBE" ["a", "b", "a"] rfl).2.2.2.1

/-- C9: `Unsubscribe()` and `PUnsubscribe()` with zero targets, on an acquired
connection, are neither rejected nor a no-op: each returns the result of the
write and hands exactly one more frame to the writer, the single element
`UNSUBSCRIBE` (resp. `PUNSUBSCRIBE`). -/
theorem Unsubscribe_no_targets (c : PubSub) (cn : conn) (hc : c.connPool = .ok cn) :
    c.Unsubscribe []
        = (.ret cn.werr, { connPool := .ok { cn with wr := cn.wr ++ [[.str "UNSUBSCRIBE"]] } })
      ∧ c.PUnsubscribe []
        = (.ret cn.werr, { connPool := .ok { cn with wr := cn.wr ++ [[.str "PUNSUBSCRIBE"]] } })
    := by
  constructor
  · exact subscribe_of_conn c cn "UNSUBSCRIBE" [] hc
  · exact subscribe_of_conn c cn "PUNSUBSCRIBE" [] hc

theorem Unsubscribe_no_targets_witness :
    (sessionOf []).Unsubscribe []
        = (.ret none, { connPool := .ok { connOf [] with wr := [[.str "UNSUBSCRIBE"]] } })
      ∧ (sessionOf []).PUnsubscribe []
        = (.ret none, { connPool := .ok { connOf [] with wr := [[.str "PUNSUBSCRIBE"]] } }) :=
  Unsubscribe_no_targets (sessionOf []) (connOf []) rfl

/-! ## Receive -/

/-- C10: `Receive()` is `ReceiveTimeout(0)`, and the zero timeout is an
unbounded wait.  On every session, whatever the pending input, both calls have
the same outcome (event, error or panic) and leave the same session, the read
running under the read timeout 0.  With the read subject to the read deadline,
the same equality holds, and `Receive` waits without bound: however long the
pending inputs take to arrive, its outcome and the session it leaves are those
of `Receive` with every input already available, so that a pending frame is
decoded and a pending read error returned after any wait; whereas a call with a
non-zero timeout shorter than the wait returns the timeout error and leaves the
input pending. -/
theorem Receive_eq_ReceiveTimeout_zero (c : PubSub) (tc : TimedPubSub) :
    c.Receive = c.ReceiveTimeout 0
      ∧ (∀ cn : conn, c.connPool = .ok cn →
          ∃ cn1 : conn, (c.Receive).2.connPool = .ok cn1 ∧ cn1.ReadTimeout = 0
            ∧ cn1.reads = cn.reads ++ [0] ∧ cn1.rd = cn.rd.tail)
      ∧ tc.Receive = tc.ReceiveTimeout 0
      ∧ (tc.Receive).1 = (tc.toPubSub.Receive).1
      ∧ (tc.Receive).2.toPubSub = (tc.toPubSub.Receive).2
      ∧ (∀ (cn : TimedConn) (reply : List Value) (rest : List (Except GoError (List Value))),
          tc.connPool = .ok cn → cn.rd = .ok reply :: rest →
          (tc.Receive).1 = decodeReply reply
            ∧ ∃ cn1 : TimedConn, (tc.Receive).2.connPool = .ok cn1 ∧ cn1.rd = rest
                ∧ cn1.delays = cn.delays.tail ∧ cn1.reads = cn.reads ++ [0])
      ∧ (∀ (cn : TimedConn) (e : GoError) (rest : List (Except GoError (List Value))),
          tc.connPool = .ok cn → cn.rd = .error e :: rest →
          (tc.Receive).1 = .ret (none, some e))
      ∧ (∀ (cn : TimedConn) (timeout : Int) (delay : Nat) (later : List Nat),
          tc.connPool = .ok cn → cn.delays = delay :: later →
          timeout ≠ 0 → timeout < (delay : Int) →
          (tc.ReceiveTimeout timeout).1 = .ret (none, some ErrTimeout)
            ∧ ∃ cn1 : TimedConn, (tc.ReceiveTimeout timeout).2.connPool = .ok cn1
                ∧ cn1.rd = cn.rd ∧ cn1.reads = cn.reads ++ [timeout]) := by
  refine ⟨rfl, fun cn hc => ?_, rfl, (TimedReceive_eq tc).1, (TimedReceive_eq tc).2,
    fun cn reply rest hc hrd => ?_, fun cn e rest hc hrd => ?_,
    fun cn timeout delay later hc hd h0 hlt => ?_⟩
  · rw [show c.Receive = c.ReceiveTimeout 0 from rfl, ReceiveTimeout_snd c cn 0 hc]
    exact ⟨_, rfl, rfl, rfl, rfl⟩
  · have htc : tc.toPubSub.connPool = .ok cn.toconn := by simp [TimedPubSub.toPubSub, hc]
    refine ⟨?_, ?_⟩
    · rw [(TimedReceive_eq tc).1]
      exact ReceiveTimeout_of_frame tc.toPubSub cn.toconn 0 reply rest htc hrd
    · obtain ⟨cn1, h1, h2, h3, h4, _⟩ := TimedReceive_delays tc cn hc
      exact ⟨cn1, h1, by rw [h3, hrd]; rfl, h2, h4⟩
  · have htc : tc.toPubSub.connPool = .ok cn.toconn := by simp [TimedPubSub.toPubSub, hc]
    rw [(TimedReceive_eq tc).1]
    have h := ReceiveTimeout_of_read_error tc.toPubSub cn.toconn 0 e rest htc hrd
    exact congrArg Prod.fst h
  · rw [TimedReceiveTimeout_late tc cn timeout delay later hc hd h0 hlt]
    exact ⟨rfl, _, rfl, rfl, rfl⟩

theorem Receive_eq_ReceiveTimeout_zero_witness :
    ((timedSessionOf [.ok [.str "message", .str "foo", .str "bar"]] [1000000000]).Receive).1
        = .ret (some (.message { Channel := "foo", Payload := "bar" }), none)
      ∧ ((timedSessionOf [.ok [.str "message", .str "foo", .str "bar"]]
            [1000000000]).ReceiveTimeout 5).1 = .ret (none, some ErrTimeout) :=
  ⟨(((Receive_eq_ReceiveTimeout_zero (sessionOf [])
        (timedSessionOf [.ok [.str "message", .str "foo", .str "bar"]] [1000000000])
      ).2.2.2.2.2.1
      { toconn := connOf [.ok [.str "message", .str "foo", .str "bar"]],
        delays := [1000000000] }
      [.str "message", .str "foo", .str "bar"] [] rfl rfl).1).trans
      (decodeReply_message "foo" "bar" []),
   ((Receive_eq_ReceiveTimeout_zero (sessionOf [])
        (timedSessionOf [.ok [.str "message", .str "foo", .str "bar"]] [1000000000])
      ).2.2.2.2.2.2.2
      { toconn := connOf [.ok [.str "message", .str "foo", .str "bar"]],
        delays := [1000000000] }
      5 1000000000 [] rfl rfl (by decide) (by decide)).1⟩

/-! ## Read timeout of successive receive calls -/

/-- C11: the timeout of a receive call applies to that call only.  For every
sequence of `Receive`/`ReceiveTimeout` calls on a session with an acquired
connection, the read timeouts in force at the reads of the sequence are, in
order, the calls' own arguments (0 for `Receive`); the setting a call leaves on
the connection is its own argument; and that setting carries nothing into
later calls: whatever read timeout the connection holds beforehand, a call, and
any sequence of calls, has the same outcomes and leaves the same session. -/
theorem receive_timeout_per_call (c : PubSub) (cn : conn) (calls : List ReceiveCall)
    (hc : c.connPool = .ok cn) :
    (∃ cn1 : conn, (receiveCalls c calls).2.connPool = .ok cn1
        ∧ cn1.reads = cn.reads ++ calls.map ReceiveCall.timeout)
      ∧ (∀ call : ReceiveCall, ∃ cn1 : conn, (call.run c).2.connPool = .ok cn1
          ∧ cn1.ReadTimeout = call.timeout ∧ cn1.reads = cn.reads ++ [call.timeout])
      ∧ (∀ (t0 : Int) (call : ReceiveCall),
          call.run { connPool := .ok { cn with ReadTimeout := t0 } } = call.run c)
      ∧ (∀ (t0 : Int) (call : ReceiveCall),
          receiveCalls { connPool := .ok { cn with ReadTimeout := t0 } } (call :: calls)
            = receiveCalls c (call :: calls)) := by
  refine ⟨receiveCalls_reads calls c cn hc, fun call => ?_,
    fun t0 call => run_ReadTimeout_irrelevant c cn call t0 hc, fun t0 call => ?_⟩
  · rw [run_snd c cn call hc]
    exact ⟨_, rfl, rfl, rfl⟩
  · rw [receiveCalls_cons, receiveCalls_cons, run_ReadTimeout_irrelevant c cn call t0 hc]

theorem receive_timeout_per_call_witness :
    ∃ cn1 : conn,
      (receiveCalls (sessionOf [.ok [.str "message", .str "foo", .str "bar"]])
          [.ReceiveTimeout 5, .Receive, .ReceiveTimeout 3]).2.connPool = .ok cn1
        ∧ cn1.reads = [] ++ [5, 0, 3] :=
  (receive_timeout_per_call (sessionOf [.ok [.str "message", .str "foo", .str "bar"]])
    (connOf [.ok [.str "message", .str "foo", .str "bar"]])
    [.ReceiveTimeout 5, .Receive, .ReceiveTimeout 3] rfl).1

/-! ## Errors of the collaborators -/

/-- C12: errors of the collaborators surface unchanged from a receive call.
When acquiring the connection fails with `e`, `ReceiveTimeout` returns no event
and `e`, and the session is as before (no read is attempted).  When the read
fails with `e`, it returns no event and `e` after exactly one read attempt, the
session still holds the same connection with the rest of its inbound side, and
the next receive call reads the next pending input of that connection. -/
theorem ReceiveTimeout_collaborator_error (c : PubSub) (cn : conn) (timeout : Int)
    (e : GoError) (rest : List (Except GoError (List Value))) :
    (c.connPool = .error e → c.ReceiveTimeout timeout = (.ret (none, some e), c))
      ∧ (c.connPool = .ok cn → cn.rd = .error e :: rest →
          (c.ReceiveTimeout timeout).1 = .ret (none, some e)
            ∧ (c.ReceiveTimeout timeout).2
                = { connPool := .ok { cn with ReadTimeout := timeout, rd := rest,
                                              reads := cn.reads ++ [timeout] } }
            ∧ ∀ (timeout2 : Int) (reply : List Value)
                (rest2 : List (Except GoError (List Value))), rest = .ok reply :: rest2 →
                ((c.ReceiveTimeout timeout).2.ReceiveTimeout timeout2).1 = decodeReply reply) := by
  refine ⟨fun hc => ReceiveTimeout_of_no_conn c e timeout hc, fun hc hrd => ?_⟩
  have h := ReceiveTimeout_of_read_error c cn timeout e rest hc hrd
  refine ⟨by rw [h], by rw [h], fun timeout2 reply rest2 hrest => ?_⟩
  rw [h]
  exact ReceiveTimeout_of_frame _ _ timeout2 reply rest2 rfl hrest

theorem ReceiveTimeout_collaborator_error_witness :
    ((sessionOf [.error (.ext "i/o timeout"), .ok [.str "message", .str "foo", .str "bar"]]
        ).ReceiveTimeout 5).1 = .ret (none, some (.ext "i/o timeout"))
      ∧ ((sessionOf [.error (.ext "i/o timeout"), .ok [.str "message", .str "foo", .str "bar"]]
          ).ReceiveTimeout 5).2
        = { connPool := .ok { ReadTimeout := 5,
                              rd := [.ok [.str "message", .str "foo", .str "bar"]],
                              reads := [5], wr := [], werr := none } } :=
  ⟨((ReceiveTimeout_collaborator_error (sessionOf _) (connOf _) 5 (.ext "i/o timeout")
      [.ok [.str "message", .str "foo", .str "bar"]]).2 rfl rfl).1,
   ((ReceiveTimeout_collaborator_error (sessionOf _) (connOf _) 5 (.ext "i/o timeout")
      [.ok [.str "message", .str "foo", .str "bar"]]).2 rfl rfl).2.1⟩

/-! ## Subscribe-family calls leave the inbound side alone -/

/-- C13: a subscribe-family call never reads from the connection.  On an
acquired connection, `subscribe` (hence `Subscribe`, `PSubscribe`,
`Unsubscribe`, `PUnsubscribe`) returns exactly the result of its single write
(success if and only if the write succeeded, else that transport error), and
the connection it leaves has the same pending inbound outcomes, the same record
of reads attempted and the same read timeout as before.  When no connection
can be acquired nothing is written and the session is left as it was. -/
theorem subscribe_never_reads (c : PubSub) (cn : conn) (e : GoError) (cmd : String)
    (channels : List String) :
    (c.connPool = .ok cn →
        (c.subscribe cmd channels).1 = .ret cn.werr
          ∧ ((c.subscribe cmd channels).1 = .ret none ↔ cn.werr = none)
          ∧ ∃ cn1 : conn, (c.subscribe cmd channels).2.connPool = .ok cn1
              ∧ cn1.rd = cn.rd ∧ cn1.reads = cn.reads ∧ cn1.ReadTimeout = cn.ReadTimeout
              ∧ cn1.wr.length = cn.wr.length + 1)
      ∧ (c.connPool = .error e → c.subscribe cmd channels = (.ret (some e), c))
      ∧ c.Subscribe channels = c.subscribe "SUBSCRIBE" channels
      ∧ c.PSubscribe channels = c.subscribe "PSUBSCRIBE" channels
      ∧ c.Unsubscribe channels = c.subscribe "UNSUBSCRIBE" channels
      ∧ c.PUnsubscribe channels = c.subscribe "PUNSUBSCRIBE" channels := by
  refine ⟨fun hc => ?_, fun hc => subscribe_of_no_conn c e cmd channels hc, rfl, rfl, rfl, rfl⟩
  have h := subscribe_of_conn c cn cmd channels hc
  refine ⟨by rw [h], ?_, ?_⟩
  · rw [h]
    constructor
    · intro hr
      cases hw : cn.werr with
      | none => rfl
      | some e1 => rw [hw] at hr; cases hr
    · intro hw
      rw [hw]
  · rw [h]
    exact ⟨_, rfl, rfl, rfl, rfl, by simp⟩

theorem subscribe_never_reads_witness :
    ∃ cn1 : conn,
      ((sessionOf [.ok [.str "subscribe", .str "foo", .int64 1]]).subscribe "SUBSCRIBE"
          ["foo"]).2.connPool = .ok cn1
        ∧ cn1.rd = [.ok [.str "subscribe", .str "foo", .int64 1]] ∧ cn1.reads = []
        ∧ cn1.ReadTimeout = 0 ∧ cn1.wr.length = 0 + 1 :=
  ((subscribe_never_reads (sessionOf [.ok [.str "subscribe", .str "foo", .int64 1]])
    (connOf [.ok [.str "subscribe", .str "foo", .int64 1]]) EOF "SUBSCRIBE" ["foo"]).1 rfl).2.2

/-! ## One frame per receive call -/

/-- C14: with the inbound side of the connection as a queue, a `ReceiveTimeout`
call that returns an event has removed exactly the head frame of the queue, and
the event is the decoding of that frame alone; hence, when the queue starts
with `n` well-formed frames, `n` successive receive calls return their
decodings in queue order, each an event with no error, and leave the rest of
the queue. -/
theorem receive_one_frame_per_call (c : PubSub) (timeout : Int) (ev : Event)
    (err : Option GoError) (frames : List (List Value)) (calls : List ReceiveCall)
    (tail : List (Except GoError (List Value))) :
    ((c.ReceiveTimeout timeout).1 = .ret (some ev, err) →
        ∃ (cn cn1 : conn) (frame : List Value) (rest : List (Except GoError (List Value))),
          c.connPool = .ok cn ∧ cn.rd = .ok frame :: rest
            ∧ decodeReply frame = .ret (some ev, err)
            ∧ (c.ReceiveTimeout timeout).2.connPool = .ok cn1 ∧ cn1.rd = rest)
      ∧ (∀ cn : conn, c.connPool = .ok cn → cn.rd = frames.map Except.ok ++ tail →
          (∀ frame ∈ frames, wellFormed frame = true) → calls.length = frames.length →
          (receiveCalls c calls).1 = frames.map decodeReply
            ∧ (∀ frame ∈ frames, ∃ ev1 : Event, decodeReply frame = .ret (some ev1, none))
            ∧ ∃ cn1 : conn, (receiveCalls c calls).2.connPool = .ok cn1 ∧ cn1.rd = tail) := by
  constructor
  · intro h
    obtain ⟨cn, frame, rest, hc, hrd, hdec⟩ := ReceiveTimeout_event c timeout ev err h
    refine ⟨cn, { cn with ReadTimeout := timeout, rd := cn.rd.tail,
                          reads := cn.reads ++ [timeout] }, frame, rest, hc, hrd, hdec, ?_, ?_⟩
    · rw [ReceiveTimeout_snd c cn timeout hc]
    · simp [hrd]
  · intro cn hc hrd hwf hlen
    obtain ⟨h1, h2⟩ := receiveCalls_frames frames c cn calls tail hc hrd hlen
    exact ⟨h1, fun frame hf => decodeReply_of_wellFormed frame (hwf frame hf), h2⟩

theorem receive_one_frame_per_call_witness :
    (receiveCalls
        (sessionOf [.ok [.str "subscribe", .str "foo", .int64 1],
          .ok [.str "message", .str "foo", .str "bar"], .error EOF])
        [.Receive, .ReceiveTimeout 5]).1
      = [decodeReply [.str "subscribe", .str "foo", .int64 1],
          decodeReply [.str "message", .str "foo", .str "bar"]] :=
  ((receive_one_frame_per_call
      (sessionOf [.ok [.str "subscribe", .str "foo", .int64 1],
        .ok [.str "message", .str "foo", .str "bar"], .error EOF])
      0 (.message { Channel := "foo", Payload := "bar" }) none
      [[.str "subscribe", .str "foo", .int64 1], [.str "message", .str "foo", .str "bar"]]
      [.Receive, .ReceiveTimeout 5] [.error EOF]).2
    (connOf _) rfl rfl (by decide) rfl).1

/-! ## Variant of the event returned -/

/-- C15: whenever `ReceiveTimeout` returns an event, no error comes with it, the
frame read starts with a string discriminator, and the variant of the event is
fixed by that discriminator alone: it is a `Subscription` exactly when the
discriminator is one of the four acknowledgement kinds (its `Kind` then being
the discriminator), a `Message` exactly when it is `message`, a `PMessage`
exactly when it is `pmessage`. -/
theorem event_variant_by_discriminator (c : PubSub) (timeout : Int) (ev : Event)
    (err : Option GoError) (h : (c.ReceiveTimeout timeout).1 = .ret (some ev, err)) :
    err = none
      ∧ ∃ (cn : conn) (name : String) (tail : List Value)
          (rest : List (Except GoError (List Value))),
          c.connPool = .ok cn ∧ cn.rd = .ok (.str name :: tail) :: rest
            ∧ ((∃ m : Subscription, ev = .subscription m)
                ↔ name ∈ ["subscribe", "unsubscribe", "psubscribe", "punsubscribe"])
            ∧ (∀ m : Subscription, ev = .subscription m →
                m.Kind = name
                  ∧ m.Kind ∈ ["subscribe", "unsubscribe", "psubscribe", "punsubscribe"])
            ∧ ((∃ m : Message, ev = .message m) ↔ name = "message")
            ∧ ((∃ m : PMessage, ev = .pmessage m) ↔ name = "pmessage") := by
  obtain ⟨cn, frame, rest, hc, hrd, hdec⟩ := ReceiveTimeout_event c timeout ev err h
  obtain ⟨herr, name, tail, hframe, hcase⟩ := decodeReply_event frame ev err hdec
  subst hframe
  refine ⟨herr, cn, name, tail, rest, hc, hrd, ?_⟩
  rcases hcase with ⟨hk, m, hev, hkind⟩ | ⟨hk, m, hev⟩ | ⟨hk, m, hev⟩
  · have hk1 : name ≠ "message" := by rintro rfl; revert hk; decide
    have hk2 : name ≠ "pmessage" := by rintro rfl; revert hk; decide
    subst hev
    refine ⟨⟨fun _ => hk, fun _ => ⟨m, rfl⟩⟩, ?_, ?_, ?_⟩
    · intro m1 hm1
      cases hm1
      exact ⟨hkind, hkind ▸ hk⟩
    · exact ⟨fun ⟨_, hm⟩ => (by cases hm), fun hn => absurd hn hk1⟩
    · exact ⟨fun ⟨_, hm⟩ => (by cases hm), fun hn => absurd hn hk2⟩
  · subst hk
    subst hev
    refine ⟨⟨fun ⟨_, hm⟩ => (by cases hm), fun hn => absurd hn (by decide)⟩, ?_, ?_, ?_⟩
    · intro m1 hm1
      cases hm1
    · exact ⟨fun _ => rfl, fun _ => ⟨m, rfl⟩⟩
    · exact ⟨fun ⟨_, hm⟩ => (by cases hm), fun hn => absurd hn (by decide)⟩
  · subst hk
    subst hev
    refine ⟨⟨fun ⟨_, hm⟩ => (by cases hm), fun hn => absurd hn (by decide)⟩, ?_, ?_, ?_⟩
    · intro m1 hm1
      cases hm1
    · exact ⟨fun ⟨_, hm⟩ => (by cases hm), fun hn => absurd hn (by decide)⟩
    · exact ⟨fun _ => rfl, fun _ => ⟨m, rfl⟩⟩

theorem event_variant_by_discriminator_witness :
    (none : Option GoError) = none
      ∧ ∃ (cn : conn) (name : String) (tail : List Value)
          (rest : List (Except GoError (List Value))),
          (sessionOf [.ok [.str "psubscribe", .str "f*", .int64 2]]).connPool = .ok cn
            ∧ cn.rd = .ok (.str name :: tail) :: rest
            ∧ ((∃ m : Subscription,
                  Event.subscription { Kind := "psubscribe", Channel := "f*", Count := 2 }
                    = .subscription m)
                ↔ name ∈ ["subscribe", "unsubscribe", "psubscribe", "punsubscribe"])
            ∧ (∀ m : Subscription,
                Event.subscription { Kind := "psubscribe", Channel := "f*", Count := 2 }
                    = .subscription m →
                m.Kind = name
                  ∧ m.Kind ∈ ["subscribe", "unsubscribe", "psubscribe", "punsubscribe"])
            ∧ ((∃ m : Message,
                  Event.subscription { Kind := "psubscribe", Channel := "f*", Count := 2 }
                    = .message m) ↔ name = "message")
            ∧ ((∃ m : PMessage,
                  Event.subscription { Kind := "psubscribe", Channel := "f*", Count := 2 }
                    = .pmessage m) ↔ name = "pmessage") :=
  event_variant_by_discriminator (sessionOf [.ok [.str "psubscribe", .str "f*", .int64 2]]) 0
    (.subscription { Kind := "psubscribe", Channel := "f*", Count := 2 }) none
    (by rw [ReceiveTimeout_sessionOf]
        exact (decodeReply_ack "psubscribe" "f*" 2 [] (by decide)).trans
          (by rw [toInt_of_isInt64 2 (by decide)]))

/-! ## Frames without a leading string discriminator -/

/-- C16, as amended: a successfully read frame that is empty, or whose first
element is not a string, is not rejected with an error value: `ReceiveTimeout`
stops with a run-time panic (index out of range for the empty frame, a failed
type assertion on the first element otherwise) and yields neither an event nor
an error.  For every frame read, the call does exactly one of three things: it
returns an event with no error, it returns no event with an error, or it
panics. -/
theorem ReceiveTimeout_no_discriminator (c : PubSub) (cn : conn) (timeout : Int)
    (frame : List Value) (rest : List (Except GoError (List Value)))
    (hc : c.connPool = .ok cn) (hrd : cn.rd = .ok frame :: rest) :
    (frame = [] → (c.ReceiveTimeout timeout).1 = .panic (.indexOutOfRange 0 0))
      ∧ (∀ (v : Value) (tail : List Value), frame = v :: tail → v.hasType .string = false →
          (c.ReceiveTimeout timeout).1 = .panic (.interfaceConversion v .string))
      ∧ ((∃ ev : Event, (c.ReceiveTimeout timeout).1 = .ret (some ev, none))
          ∨ (∃ e : GoError, (c.ReceiveTimeout timeout).1 = .ret (none, some e))
          ∨ (∃ p : Panic, (c.ReceiveTimeout timeout).1 = .panic p)) := by
  rw [ReceiveTimeout_of_frame c cn timeout frame rest hc hrd]
  refine ⟨fun hf => ?_, fun v tail hf hv => ?_, decodeReply_trichotomy frame⟩
  · rw [hf, decodeReply_nil]
  · rw [hf, decodeReply_not_string v tail hv]

theorem ReceiveTimeout_no_discriminator_witness :
    ((sessionOf [.ok [.int64 7, .str "foo"]]).ReceiveTimeout 0).1
      = .panic (.interfaceConversion (.int64 7) .string) :=
  (ReceiveTimeout_no_discriminator (sessionOf [.ok [.int64 7, .str "foo"]])
    (connOf [.ok [.int64 7, .str "foo"]]) 0 [.int64 7, .str "foo"] [] rfl rfl).2.1
    (.int64 7) [.str "foo"] rfl rfl

/-- C16 as stated fails: on the empty frame the call raises the panic
`index out of range [0] with length 0`; it returns neither an error value nor
an event. -/
theorem ReceiveTimeout_no_discriminator_counterexample :
    ((sessionOf [.ok []]).ReceiveTimeout 0).1 = .panic (.indexOutOfRange 0 0)
      ∧ ¬ ∃ r : Option Event × Option GoError,
          ((sessionOf [.ok []]).ReceiveTimeout 0).1 = .ret r := by
  have h : ((sessionOf [.ok []]).ReceiveTimeout 0).1 = .panic (.indexOutOfRange 0 0) := by
    rw [ReceiveTimeout_sessionOf, decodeReply_nil]
  refine ⟨h, ?_⟩
  rintro ⟨r, hr⟩
  rw [h] at hr
  cases hr

/-! ## Textual renderings of the events -/

/-- C17: `Message.String()` is `Message<` Channel `: ` Payload `>`,
`PMessage.String()` is `PMessage<` Channel `: ` Payload `>`, and
`Subscription.String()` is Kind `: ` Channel.  Hence two pattern messages that
differ only in `Pattern` render identically, and two subscriptions that differ
only in `Count` render identically. -/
theorem String_renderings (quote : String → String) (m : Message) (pm : PMessage)
    (sub : Subscription) :
    m.String quote = "Message<" ++ m.Channel ++ ": " ++ m.Payload ++ ">"
      ∧ pm.String quote = "PMessage<" ++ pm.Channel ++ ": " ++ pm.Payload ++ ">"
      ∧ sub.String quote = sub.Kind ++ ": " ++ sub.Channel
      ∧ (∀ pattern : String, PMessage.String quote { pm with Pattern := pattern }
          = pm.String quote)
      ∧ (∀ count : Int, Subscription.String quote { sub with Count := count }
          = sub.String quote) := by
  refine ⟨(String_of_Sprintf quote m.Channel m.Payload).1,
    (String_of_Sprintf quote pm.Channel pm.Payload).2.1,
    (String_of_Sprintf quote sub.Kind sub.Channel).2.2, fun _ => rfl, fun _ => rfl⟩

end Redis
